import Mathlib

/-!
Verification of the Nexus table-designer core: a shallow embedding of the
type-mapping, SQL-generation, row-validation and structure-introspection
logic of `TableDesigner.jsx`, `DataGridView.jsx` and the Databricks
adapter, with theorems settling the spec's claims about them.

JavaScript strings are modelled as Lean `String`s; the handful of string
builtins the code calls (`toUpperCase`, `toLowerCase`, `endsWith`,
`includes`, `trim`, `split`, `join`) are given explicit character-list
implementations below so that every definition evaluates by `decide`.
-/

namespace Nexus

/-! ## JavaScript string builtins, modelled at the character level -/

/-- Model of `s.toUpperCase()`. -/
def upperStr (s : String) : String := ⟨s.data.map Char.toUpper⟩

/-- Model of `s.toLowerCase()`. -/
def lowerStr (s : String) : String := ⟨s.data.map Char.toLower⟩

/-- Model of `s.endsWith(suffix)`. -/
def strEndsWith (s suffix : String) : Bool := List.isSuffixOf suffix.data s.data

/-- Does `pat` occur as a contiguous run inside `l`? (helper for `includes`). -/
def subList (pat : List Char) : List Char → Bool
  | [] => pat.isEmpty
  | c :: rest => List.isPrefixOf pat (c :: rest) || subList pat rest

/-- Model of `s.includes(pat)`. -/
def containsSub (s pat : String) : Bool := subList pat.data s.data

/-- Model of `s.trim()`: whitespace stripped from both ends. -/
def trimStr (s : String) : String :=
  ⟨((s.data.dropWhile Char.isWhitespace).reverse.dropWhile Char.isWhitespace).reverse⟩

/-- Splitting worker, fuelled by the input length so it is structural. -/
def splitAux (sep : List Char) : Nat → List Char → List Char → List (List Char)
  | 0, _, cur => [cur.reverse]
  | _ + 1, [], cur => [cur.reverse]
  | fuel + 1, c :: rest, cur =>
    if List.isPrefixOf sep (c :: rest) then
      cur.reverse :: splitAux sep fuel (List.drop sep.length (c :: rest)) []
    else
      splitAux sep fuel rest (c :: cur)

/-- Model of `s.split(sep)` for a non-empty separator. -/
def jsSplit (s sep : String) : List String :=
  if sep.data.isEmpty then [s]
  else (splitAux sep.data s.data.length s.data []).map fun l => ⟨l⟩

/-- Decimal digits of a natural number, fuelled so the recursion is structural. -/
def natDigitsAux : Nat → Nat → List Char
  | 0, _ => []
  | fuel + 1, n =>
    if n < 10 then [Char.ofNat (48 + n)]
    else natDigitsAux fuel (n / 10) ++ [Char.ofNat (48 + n % 10)]

/-- Model of the JavaScript template interpolation `${idx}` of a natural index. -/
def natRepr (n : Nat) : String := ⟨natDigitsAux (n + 1) n⟩

/-- Value of a digit string, the parsing inverse used to prove `natRepr` injective. -/
def digitsVal (l : List Char) : Nat := l.foldl (fun a c => 10 * a + (c.toNat - 48)) 0

/-- Truthiness of a JavaScript string-or-absent value (`undefined`/`''` are falsy). -/
def jsOptTruthy : Option String → Bool
  | none => false
  | some s => s ≠ ""

/-- Index-aware map, the shape of `Array.prototype.map((x, idx) => ...)`. -/
def mapWithIdx (f : Nat → α → β) : Nat → List α → List β
  | _, [] => []
  | i, c :: rest => f i c :: mapWithIdx f (i + 1) rest

/-! ## Schema Model (`TableDesigner.jsx`)

A designer column as held in the `columns` React state. -/

structure Column where
  name : String
  dataType : String
  isPrimaryKey : Bool
  isNullable : Bool
  isIdentity : Bool
  isFixed : Bool
  listValues : Option (List String) := none
  referenceTable : Option String := none
  displayColumns : Option (List String) := none
  deriving Repr, DecidableEq

/-- The `sqlDataTypeMap` object of `TableDesigner.jsx` (lines 30-38). -/
def sqlDataTypeMap : String → Option String := fun t =>
  if t = "Text" then some "STRING"
  else if t = "Number" then some "DOUBLE"
  else if t = "Date" then some "TIMESTAMP"
  else if t = "True/False" then some "BOOLEAN"
  else if t = "BIGINT" then some "BIGINT"
  else if t = "List" then some "STRING"
  else if t = "Reference" then some "BIGINT"
  else none

/-- Native SQL type of a column, from `generateSQL` (lines 272-282):
List columns are stored as `STRING`, Reference columns as `BIGINT`, anything
else goes through `sqlDataTypeMap` (an absent entry interpolates as the
string `undefined` in JavaScript). -/
def columnSqlType (c : Column) : String :=
  if c.dataType = "List" then "STRING"
  else if c.dataType = "Reference" then "BIGINT"
  else match sqlDataTypeMap c.dataType with
    | some s => s
    | none => "undefined"

/-- Guard `col.dataType === 'List' && col.listValues && col.listValues.length > 0`. -/
def isListWithValues (c : Column) : Bool :=
  c.dataType == "List" &&
    (match c.listValues with
      | some vs => !vs.isEmpty
      | none => false)

/-- Guard `col.dataType === 'Reference' && col.referenceTable`. -/
def isRefWithTable (c : Column) : Bool :=
  c.dataType == "Reference" && jsOptTruthy c.referenceTable

/-- The interpolation `col.displayColumns?.join(', ') || 'ID'`. -/
def displayColumnsJoin (c : Column) : String :=
  match c.displayColumns with
  | none => "ID"
  | some ds =>
    let j := String.intercalate ", " ds
    if j = "" then "ID" else j

/-- The trailing comment of a column definition, from `generateSQL`
(lines 293-298): an `ALLOWED VALUES:` comment for a List column with
values, a `REFERENCES:` comment for a Reference column with a table. -/
def commentSuffix (c : Column) : String :=
  if isListWithValues c then
    " /* ALLOWED VALUES: " ++ String.intercalate ", " (c.listValues.getD []) ++ " */"
  else if isRefWithTable c then
    " /* REFERENCES: " ++ c.referenceTable.getD "" ++ " (DISPLAY: " ++ displayColumnsJoin c ++ ") */"
  else ""

/-- One line of the column list of the generated DDL (`generateSQL` lines 284-300). -/
def columnDefinition (c : Column) : String :=
  "  " ++ c.name ++ " " ++ columnSqlType c
    ++ (if c.isIdentity then " GENERATED ALWAYS AS IDENTITY" else "")
    ++ (if c.isNullable then "" else " NOT NULL")
    ++ commentSuffix c

/-- Constraint name `FK_${currentTableName}_${col.referenceTable}_${idx}`
(`generateSQL` line 315), where `idx` is the column's ordinal among the
Reference columns. -/
def fkName (tableName : String) (c : Column) (idx : Nat) : String :=
  "FK_" ++ tableName ++ "_" ++ c.referenceTable.getD "" ++ "_" ++ natRepr idx

/-- One foreign-key clause of the generated DDL (`generateSQL` lines 314-316). -/
def fkClause (catalog schema tableName : String) (c : Column) (idx : Nat) : String :=
  "  CONSTRAINT " ++ fkName tableName c idx ++ " FOREIGN KEY (" ++ c.name
    ++ ") REFERENCES " ++ catalog ++ "." ++ schema ++ "." ++ c.referenceTable.getD ""
    ++ " (" ++ c.referenceTable.getD "" ++ "ID)"

/-- The Reference columns that get a foreign-key clause (`generateSQL` lines 312-313). -/
def referenceColumns (cols : List Column) : List Column := cols.filter isRefWithTable

/-- All foreign-key clauses, in order, indexed by ordinal among Reference columns. -/
def fkClauses (catalog schema tableName : String) (cols : List Column) : List String :=
  mapWithIdx (fun i c => fkClause catalog schema tableName c i) 0 (referenceColumns cols)

/-- The SQL Generator: `generateSQL` of `TableDesigner.jsx` (lines 251-326),
with the catalog and schema that the code reads from `dbConfig` passed as
arguments. Returns `""` when the table name is empty or some column name
is empty; otherwise assembles the `CREATE TABLE` text. -/
def generateSQL (catalog schema tableName : String) (cols : List Column) : String :=
  if tableName = "" then ""
  else if cols.any (fun c => c.name == "") then ""
  else
    let base := "CREATE TABLE " ++ catalog ++ "." ++ schema ++ "." ++ tableName ++ " (\n"
      ++ String.intercalate ",\n" (cols.map columnDefinition)
    let pkNames := (cols.filter (·.isPrimaryKey)).map (·.name)
    let withPk :=
      if pkNames.isEmpty then base
      else base ++ ",\n  CONSTRAINT PK_" ++ tableName ++ " PRIMARY KEY (\n    "
        ++ String.intercalate ",\n    " pkNames ++ "\n  )"
    let fks := fkClauses catalog schema tableName cols
    let withFk := if fks.isEmpty then withPk else withPk ++ ",\n" ++ String.intercalate ",\n" fks
    withFk ++ "\n) USING DELTA;"

/-- The `isPrimaryKey` branch of `handleColumnChange` (lines 96-106): demote
every other primary-key column, promote the column at `index` and force its
`isNullable` to `false`. -/
def setPrimaryKey (cols : List Column) (index : Nat) : List Column :=
  mapWithIdx
    (fun i c =>
      if i = index then { c with isPrimaryKey := true, isNullable := false }
      else if c.isPrimaryKey then { c with isPrimaryKey := false }
      else c)
    0 cols

/-- Rename the first primary-key column when its name still looks
auto-derived, from the `useEffect` on `tableName` (lines 41-56): the column
found by `findIndex(col => col.isPrimaryKey)` is renamed to
`` `${tableName}ID` `` when its name equals `ID` or ends with `ID`. -/
def renamePKCols (tableName : String) : List Column → List Column
  | [] => []
  | c :: rest =>
    if c.isPrimaryKey then
      (if c.name == "ID" || strEndsWith c.name "ID" then { c with name := tableName ++ "ID" }
       else c) :: rest
    else c :: renamePKCols tableName rest

/-- The table-rename effect: a no-op for an empty (falsy) table name, the
first primary-key column's auto-rename otherwise. -/
def renameTablePK (tableName : String) (cols : List Column) : List Column :=
  if tableName = "" then cols else renamePKCols tableName cols

/-- The value list parsed by `handleListValuesConfirm` (line 156):
`listValues.split(',').map(val => val.trim()).filter(val => val !== '')`. -/
def parseListValues (values : String) : List String :=
  ((jsSplit values ",").map trimStr).filter (· ≠ "")

/-- Adding a List column: the confirm button of `ListValuesModal` is disabled
exactly when `!localListValues.trim()` (line 418); when enabled,
`handleConfirm` runs `setListValues(localListValues)` — an asynchronous
React state update — and then calls `handleListValuesConfirm`
(lines 147-167), a closure over the parent render's `listValues`, which
`addListColumn` (line 136) reset to `''` when the modal opened. The handler
therefore always parses the stale `''`, and the appended column's value
list is `parseListValues ""`, i.e. empty, whatever the user typed. -/
def addListColumn (values : String) (cols : List Column) : List Column :=
  if trimStr values = "" then cols
  else cols ++ [{ name := "", dataType := "List", isPrimaryKey := false, isNullable := true,
                  isIdentity := false, isFixed := false,
                  listValues := some (parseListValues "") }]

/-! ## Metadata Synthesizer and Row Validator (`DataGridView.jsx`) -/

/-- The inverse Type Mapper `mapSqlTypeToFriendlyType(sqlType, columnComment)`
(lines 44-74): comment markers decide List/Reference, then the upper-cased
native type name is classified by substring. -/
def mapSqlTypeToFriendlyType (sqlType : String) (columnComment : Option String) : String :=
  if sqlType = "" then "Text"
  else
    let s := upperStr sqlType
    if (match columnComment with | some c => containsSub c "ALLOWED VALUES:" | none => false) then
      "List"
    else if (match columnComment with | some c => containsSub c "REFERENCES:" | none => false) then
      "Reference"
    else if containsSub s "VARCHAR" || containsSub s "CHAR" || containsSub s "TEXT"
        || containsSub s "STRING" then
      if containsSub s "MAX" then "Long Text" else "Text"
    else if containsSub s "INT" || containsSub s "NUMERIC" || containsSub s "DECIMAL"
        || containsSub s "FLOAT" || containsSub s "REAL" || containsSub s "MONEY"
        || containsSub s "DOUBLE" then
      "Number"
    else if containsSub s "DATE" || containsSub s "TIME" then "Date"
    else if containsSub s "BIT" || containsSub s "BOOLEAN" then "True/False"
    else "Text"

/-- Decoding a designer column the way a reload would: the native type from
the forward mapping together with the generated comment, through the
inverse mapper. -/
def decodeOf (c : Column) : String :=
  mapSqlTypeToFriendlyType (columnSqlType c) (some (commentSuffix c))

/-- A column as the grid receives it from `/api/tables/:id/structure`,
possibly enriched (`friendlyType`, `listValues`) by `fetchTableStructure`. -/
structure ClientColumn where
  name : String
  dataType : String
  comment : Option String := none
  isPrimaryKey : Bool := false
  isNullable : Bool := true
  friendlyType : Option String := none
  listValues : Option (List String) := none
  deriving Repr, DecidableEq

/-- `extractListValues(comment)` (lines 77-82): the text after the
`ALLOWED VALUES:` marker, split on commas, each part trimmed. -/
def extractListValues (comment : Option String) : List String :=
  match comment with
  | none => []
  | some c =>
    if containsSub c "ALLOWED VALUES:" then
      (jsSplit (trimStr ((jsSplit c "ALLOWED VALUES:").getD 1 "")) ",").map trimStr
    else []

/-- The per-column enrichment of `fetchTableStructure` (lines 118-139):
`friendlyType` from the inverse mapper, `listValues` extracted when the
type is List. (The `REFERENCES:` display extraction feeds only rendering
and is not needed by any claim.) -/
def mapColumn (c : ClientColumn) : ClientColumn :=
  let ft := mapSqlTypeToFriendlyType c.dataType c.comment
  { c with
    friendlyType := some ft
    listValues := some (if ft = "List" then extractListValues c.comment else []) }

/-- Primary-key identification of `fetchTableStructure` (lines 141-158):
the first column whose store-reported flag is set, else the first column
whose name ends with the case-insensitive suffix `id`, else none. -/
def identifyPrimaryKey (mapped : List ClientColumn) : Option String :=
  match mapped.find? (·.isPrimaryKey) with
  | some c => some c.name
  | none => (mapped.find? (fun c => strEndsWith (lowerStr c.name) "id")).map (·.name)

/-- The non-fatal warning set when no primary key is identified (line 157). -/
def noPrimaryKeyWarning : String :=
  "Warning: No primary key column found in this table. Updates and deletes may not work correctly."

/-- The pure core of `fetchTableStructure` on a successful response: the
enriched columns (the table loads regardless), the identified primary key,
and whether the structural warning is issued. -/
def fetchTableStructureCore (cols : List ClientColumn) :
    List ClientColumn × Option String × Bool :=
  let mapped := cols.map mapColumn
  let pk := identifyPrimaryKey mapped
  (mapped, pk, pk.isNone)

/-- The guard of `deleteRow` (lines 501-504): without a primary-key column
the delete is refused with an error message instead of a request. -/
def deleteRowGuard (pkc : Option String) : Except String Unit :=
  match pkc with
  | none => Except.error "Cannot delete row: No primary key column identified"
  | some _ => Except.ok ()

/-- The edit-mode guard of `saveRow` (lines 426-428): without a primary-key
column the update is refused with an error message instead of a request. -/
def updateRowGuard (pkc : Option String) : Except String Unit :=
  match pkc with
  | none => Except.error "Cannot update row: No primary key column identified"
  | some _ => Except.ok ()

/-- A JavaScript field value as the grid holds it. -/
inductive JsVal where
  | vNull
  | vUndef
  | vBool (b : Bool)
  | vNum (n : Int)
  | vStr (s : String)
  deriving Repr, DecidableEq

/-- The JavaScript runtime builtins the validator calls, abstracted:
`isNaN(Number(v))` and `isNaN(Date.parse(v))` live outside the repository. -/
structure JsEnv where
  numberIsNaN : JsVal → Bool
  dateParseIsNaN : JsVal → Bool

/-- JavaScript truthiness of a field value. -/
def jsTruthy : JsVal → Bool
  | .vNull => false
  | .vUndef => false
  | .vBool b => b
  | .vNum n => n != 0
  | .vStr s => s != ""

/-- `column.listValues.includes(value)`: strict-equality membership. -/
def listIncludes (vs : List String) : JsVal → Bool
  | .vStr s => vs.contains s
  | _ => false

/-- The emptiness test `value === null || value === undefined || value === ''`. -/
def isEmptyVal (v : JsVal) : Bool := v == .vNull || v == .vUndef || v == .vStr ""

/-- `column.isPrimaryKey || (primaryKeyColumn && column.name === primaryKeyColumn)`. -/
def colIsPK (pkc : Option String) (c : ClientColumn) : Bool :=
  c.isPrimaryKey ||
    (match pkc with
      | some p => p ≠ "" && c.name == p
      | none => false)

/-- `column.friendlyType || mapSqlTypeToFriendlyType(column.dataType)`. -/
def friendlyTypeOf (c : ClientColumn) : String :=
  match c.friendlyType with
  | some f => if f = "" then mapSqlTypeToFriendlyType c.dataType none else f
  | none => mapSqlTypeToFriendlyType c.dataType none

/-- The Row Validator's per-field rule, `validateField` (lines 341-381):
primary-key fields in add mode are skipped; a non-nullable empty value
errors; then the friendly type dictates a numeric, date, membership or
reference-id check. -/
def validateField (env : JsEnv) (modalMode : String) (pkc : Option String)
    (c : ClientColumn) (v : JsVal) : Option String :=
  if colIsPK pkc c && modalMode == "add" then none
  else if !c.isNullable && isEmptyVal v then some (c.name ++ " cannot be empty")
  else
    let ft := friendlyTypeOf c
    if ft = "Number" then
      if v != .vStr "" && v != .vNull && env.numberIsNaN v then
        some (c.name ++ " must be a valid number")
      else none
    else if ft = "Date" then
      if v != .vStr "" && v != .vNull && env.dateParseIsNaN v then
        some (c.name ++ " must be a valid date")
      else none
    else if ft = "List" then
      match c.listValues with
      | some vs =>
        if jsTruthy v && !listIncludes vs v then
          some (c.name ++ " must be one of the allowed values: " ++ String.intercalate ", " vs)
        else none
      | none => none
    else if ft = "Reference" then
      if v != .vNull && v != .vStr "" && env.numberIsNaN v then
        some (c.name ++ " must be a valid reference ID")
      else none
    else none

/-- The Row Validator, `validateForm` (lines 384-398): every column is
checked against the candidate row and all failing columns are collected. -/
def validateForm (env : JsEnv) (modalMode : String) (pkc : Option String)
    (cols : List ClientColumn) (row : String → JsVal) : List (String × String) :=
  cols.filterMap fun c => (validateField env modalMode pkc c (row c.name)).map fun e => (c.name, e)

/-! ## Databricks adapter (`databricks-adapter.js`) -/

/-- One row of the `DESCRIBE TABLE` recordset. -/
structure DescribeRow where
  col_name : String
  data_type : String
  deriving Repr, DecidableEq

/-- A column as `getTableStructure` of the adapter reports it. -/
structure AdapterColumn where
  name : String
  dataType : String
  length : Nat
  precision : Nat
  scale : Nat
  isNullable : Bool
  isPrimaryKey : Bool
  deriving Repr, DecidableEq

/-- The adapter's `getTableStructure(tableId)` (lines 185-209), applied to
the `DESCRIBE TABLE` recordset: every column is reported with
`isNullable: true` and `isPrimaryKey: false`. -/
def getTableStructure (tableId : String) (recordset : List DescribeRow) :
    String × List AdapterColumn :=
  let tableName := (jsSplit tableId ".").getD 2 ""
  (tableName,
    recordset.map fun col =>
      { name := col.col_name, dataType := col.data_type,
        length := 0, precision := 0, scale := 0,
        isNullable := true, isPrimaryKey := false })

/-- An adapter column as JSON delivers it to the grid: the adapter emits no
`comment` field, so the client sees it absent. -/
def adapterToClient (a : AdapterColumn) : ClientColumn :=
  { name := a.name, dataType := a.dataType, comment := none,
    isPrimaryKey := a.isPrimaryKey, isNullable := a.isNullable }

/-! ## Canonical columns of each semantic type, for the round-trip law -/

/-- A designer column of the given data type with neutral defaults
(the shape `addColumn` appends, line 128). -/
def plainCol (dt : String) : Column :=
  { name := "C", dataType := dt, isPrimaryKey := false, isNullable := true,
    isIdentity := false, isFixed := false }

/-- A List column carrying the given allowed values. -/
def listCol (vs : List String) : Column := { plainCol "List" with listValues := some vs }

/-- A Reference column carrying the given referenced table and display columns. -/
def refCol (t : String) (d : Option (List String)) : Column :=
  { plainCol "Reference" with referenceTable := some t, displayColumns := d }

/-- The default Identifier primary-key column (line 7). -/
def identifierCol : Column :=
  { name := "ID", dataType := "BIGINT", isPrimaryKey := true, isNullable := false,
    isIdentity := true, isFixed := true }

/-! ## Helper lemmas -/

theorem str_append_ne_empty_right (a b : String) (hb : b ≠ "") : a ++ b ≠ "" := by
  intro h
  apply hb
  have hd := congrArg String.data h
  rw [String.data_append] at hd
  exact String.ext (List.append_eq_nil.mp hd).2

theorem subList_eq_true_iff (pat l : List Char) : subList pat l = true ↔ pat <:+: l := by
  induction l with
  | nil => simp [subList, List.isEmpty_iff, List.infix_nil]
  | cons c rest ih =>
    simp [subList, List.infix_cons_iff, ih, List.isPrefixOf_iff_prefix, Bool.or_eq_true]

theorem containsSub_append_left (s t pat : String) (h : containsSub s pat = true) :
    containsSub (s ++ t) pat = true := by
  rw [containsSub] at h ⊢
  rw [String.data_append, subList_eq_true_iff]
  exact ((subList_eq_true_iff pat.data s.data).mp h).trans ⟨[], t.data, by simp⟩

theorem strEndsWith_append (s t : String) : strEndsWith (s ++ t) t = true := by
  rw [strEndsWith, String.data_append, List.isSuffixOf_iff_suffix]
  exact List.suffix_append s.data t.data

theorem mapWithIdx_getElem? (f : Nat → α → β) (k : Nat) (l : List α) (i : Nat) :
    (mapWithIdx f k l)[i]? = (l[i]?).map (f (k + i)) := by
  induction l generalizing k i with
  | nil => simp [mapWithIdx]
  | cons c rest ih =>
    cases i with
    | zero => simp [mapWithIdx]
    | succ j =>
      rw [mapWithIdx, List.getElem?_cons_succ, List.getElem?_cons_succ, ih (k + 1) j]
      ring_nf

theorem mapWithIdx_length (f : Nat → α → β) (k : Nat) (l : List α) :
    (mapWithIdx f k l).length = l.length := by
  induction l generalizing k with
  | nil => rfl
  | cons c rest ih => simp [mapWithIdx, ih]

theorem demote_eq_self (c : Column) (h : c.isPrimaryKey = false) :
    { c with isPrimaryKey := false } = c := by
  cases c
  simp_all

theorem setPrimaryKey_countP_aux (index : Nat) (l : List Column) (k : Nat) :
    (mapWithIdx
      (fun i c =>
        if i = index then { c with isPrimaryKey := true, isNullable := false }
        else if c.isPrimaryKey then { c with isPrimaryKey := false }
        else c)
      k l).countP (·.isPrimaryKey) =
    if k ≤ index ∧ index < k + l.length then 1 else 0 := by
  induction l generalizing k with
  | nil =>
    rw [mapWithIdx, List.countP_nil, if_neg]
    simp only [List.length_nil]
    omega
  | cons c rest ih =>
    rw [mapWithIdx, List.countP_cons, ih (k + 1)]
    simp only [List.length_cons]
    by_cases hk : k = index
    · subst hk
      rw [if_neg (by omega : ¬(k + 1 ≤ k ∧ k < k + 1 + rest.length))]
      simp only [if_pos rfl]
      rw [if_pos (by omega : k ≤ k ∧ k < k + (rest.length + 1))]
      simp
    · rw [if_neg hk]
      have hhead : (if c.isPrimaryKey = true then { c with isPrimaryKey := false }
          else c).isPrimaryKey = false := by
        by_cases hc : c.isPrimaryKey = true
        · rw [if_pos hc]
        · rw [if_neg hc]
          exact (Bool.not_eq_true _).mp hc
      rw [hhead]
      simp only [Bool.false_eq_true, if_false]
      by_cases hr : k + 1 ≤ index ∧ index < k + 1 + rest.length
      · rw [if_pos hr, if_pos (by omega)]
      · rw [if_neg hr, if_neg (by omega)]

theorem renamePKCols_spec (n : String) :
    ∀ (cols : List Column) (i : Nat) (c : Column),
    cols[i]? = some c → c.isPrimaryKey = true →
    (∀ j d, j < i → cols[j]? = some d → d.isPrimaryKey = false) →
    (renamePKCols n cols)[i]? =
      some (if c.name == "ID" || strEndsWith c.name "ID" then { c with name := n ++ "ID" }
            else c) ∧
    ∀ j, j ≠ i → (renamePKCols n cols)[j]? = cols[j]? := by
  intro cols
  induction cols with
  | nil => intro i c hc; simp at hc
  | cons a rest ih =>
    intro i c hc hpk hfirst
    cases i with
    | zero =>
      rw [List.getElem?_cons_zero] at hc
      obtain rfl : a = c := by injection hc
      rw [renamePKCols, if_pos hpk]
      refine ⟨by rw [List.getElem?_cons_zero], fun j hj => ?_⟩
      cases j with
      | zero => exact absurd rfl hj
      | succ m => rw [List.getElem?_cons_succ, List.getElem?_cons_succ]
    | succ i' =>
      rw [List.getElem?_cons_succ] at hc
      have ha : a.isPrimaryKey = false :=
        hfirst 0 a (Nat.succ_pos i') (List.getElem?_cons_zero)
      rw [renamePKCols, if_neg (by simp [ha])]
      have hshift : ∀ j d, j < i' → rest[j]? = some d → d.isPrimaryKey = false := by
        intro j d hj hd
        exact hfirst (j + 1) d (by omega) (by rw [List.getElem?_cons_succ]; exact hd)
      obtain ⟨h1, h2⟩ := ih i' c hc hpk hshift
      refine ⟨by rw [List.getElem?_cons_succ]; exact h1, fun j hj => ?_⟩
      cases j with
      | zero => rw [List.getElem?_cons_zero, List.getElem?_cons_zero]
      | succ m =>
        rw [List.getElem?_cons_succ, List.getElem?_cons_succ]
        exact h2 m (by omega)

theorem find?_eq_some_of_first (p : α → Bool) (l : List α) (i : Nat) (hi : i < l.length)
    (hp : p l[i] = true)
    (hfirst : ∀ j (hj : j < l.length), j < i → p (l[j]) = false) :
    l.find? p = some l[i] := by
  induction l generalizing i with
  | nil => simp at hi
  | cons a rest ih =>
    cases i with
    | zero =>
      rw [List.getElem_cons_zero] at hp ⊢
      rw [List.find?_cons_of_pos _ hp]
    | succ i' =>
      have ha : p a = false := by
        have := hfirst 0 (by simp) (by omega)
        simpa using this
      rw [List.find?_cons_of_neg _ (by simp [ha])]
      rw [List.getElem_cons_succ]
      have hi' : i' < rest.length := by simp at hi; omega
      refine ih i' hi' (by simpa using hp) ?_
      intro j hj hji
      have := hfirst (j + 1) (by simp; omega) (by omega)
      simpa using this

theorem mapColumn_name (c : ClientColumn) : (mapColumn c).name = c.name := rfl

theorem mapColumn_isPrimaryKey (c : ClientColumn) :
    (mapColumn c).isPrimaryKey = c.isPrimaryKey := rfl

theorem str_left_cancel (a s t : String) (hst : s ≠ t) : a ++ s ≠ a ++ t := by
  intro h
  apply hst
  have hd := congrArg String.data h
  rw [String.data_append, String.data_append] at hd
  exact String.ext (List.append_cancel_left hd)

theorem str_left_cancel_append (nm a j b : String) (hlen : b.data.length < a.data.length) :
    nm ++ a ++ j ≠ nm ++ b := by
  intro h
  have hd := congrArg String.data h
  rw [String.data_append, String.data_append, String.data_append, List.append_assoc] at hd
  have hc := List.append_cancel_left hd
  have hl := congrArg List.length hc
  rw [List.length_append] at hl
  omega

theorem validateField_no_empty_error (env : JsEnv) (mode : String) (pkc : Option String)
    (c : ClientColumn) (v : JsVal) (h : c.isNullable = true) :
    validateField env mode pkc c v ≠ some (c.name ++ " cannot be empty") := by
  rw [validateField]
  by_cases h0 : (colIsPK pkc c && (mode == "add")) = true
  · simp [h0]
  · rw [if_neg h0]
    have hguard : (!c.isNullable && isEmptyVal v) = false := by rw [h]; rfl
    simp only [hguard, Bool.false_eq_true, if_false]
    split
    · split
      · intro heq
        have := Option.some.inj heq
        exact str_left_cancel c.name " must be a valid number" " cannot be empty" (by decide) this
      · simp
    · split
      · split
        · intro heq
          have := Option.some.inj heq
          exact str_left_cancel c.name " must be a valid date" " cannot be empty" (by decide) this
        · simp
      · split
        · split
          · split
            · intro heq
              have := Option.some.inj heq
              exact str_left_cancel_append c.name " must be one of the allowed values: " _
                " cannot be empty" (by decide) this
            · simp
          · simp
        · split
          · split
            · intro heq
              have := Option.some.inj heq
              exact str_left_cancel c.name " must be a valid reference ID" " cannot be empty"
                (by decide) this
            · simp
          · simp

theorem char_toNat_ofNat_small (m : Nat) (hm : m < 10) : (Char.ofNat (48 + m)).toNat = 48 + m := by
  interval_cases m <;> decide

theorem digitsVal_append (l : List Char) (c : Char) :
    digitsVal (l ++ [c]) = 10 * digitsVal l + (c.toNat - 48) := by
  rw [digitsVal, digitsVal, List.foldl_append]
  rfl

theorem digitsVal_natDigitsAux (fuel n : Nat) (h : n < 10 ^ fuel) :
    digitsVal (natDigitsAux fuel n) = n := by
  induction fuel generalizing n with
  | zero =>
    have : n = 0 := by simpa using h
    subst this
    rfl
  | succ fuel ih =>
    rw [natDigitsAux]
    by_cases hn : n < 10
    · rw [if_pos hn]
      show digitsVal ([] ++ [Char.ofNat (48 + n)]) = n
      rw [digitsVal_append, char_toNat_ofNat_small n hn]
      simp [digitsVal]
    · rw [if_neg hn]
      rw [digitsVal_append, char_toNat_ofNat_small (n % 10) (Nat.mod_lt n (by omega))]
      have hdiv : n / 10 < 10 ^ fuel := by
        apply Nat.div_lt_of_lt_mul
        rw [pow_succ] at h
        omega
      rw [ih (n / 10) hdiv]
      omega

theorem natRepr_inj (m n : Nat) (h : natRepr m = natRepr n) : m = n := by
  have hd : natDigitsAux (m + 1) m = natDigitsAux (n + 1) n := congrArg String.data h
  have hm : m < 10 ^ (m + 1) := lt_of_lt_of_le (Nat.lt_pow_self (by norm_num) m)
    (Nat.pow_le_pow_right (by norm_num) (Nat.le_succ m))
  have hn : n < 10 ^ (n + 1) := lt_of_lt_of_le (Nat.lt_pow_self (by norm_num) n)
    (Nat.pow_le_pow_right (by norm_num) (Nat.le_succ n))
  calc m = digitsVal (natDigitsAux (m + 1) m) := (digitsVal_natDigitsAux _ _ hm).symm
    _ = digitsVal (natDigitsAux (n + 1) n) := by rw [hd]
    _ = n := digitsVal_natDigitsAux _ _ hn

theorem underscore_not_mem_natDigitsAux (fuel n : Nat) : '_' ∉ natDigitsAux fuel n := by
  induction fuel generalizing n with
  | zero => simp [natDigitsAux]
  | succ fuel ih =>
    rw [natDigitsAux]
    by_cases hn : n < 10
    · rw [if_pos hn]
      intro hmem
      have hc : '_' = Char.ofNat (48 + n) := by simpa using hmem
      have := char_toNat_ofNat_small n hn
      rw [← hc] at this
      simp at this
      omega
    · rw [if_neg hn]
      intro hmem
      rcases List.mem_append.mp hmem with hmem | hmem
      · exact ih (n / 10) hmem
      · have hc : '_' = Char.ofNat (48 + n % 10) := by simpa using hmem
        have := char_toNat_ofNat_small (n % 10) (Nat.mod_lt n (by omega))
        rw [← hc] at this
        simp at this
        omega

theorem append_sep_inj : ∀ (a b c d : List Char), '_' ∉ a → '_' ∉ b →
    a ++ '_' :: c = b ++ '_' :: d → a = b ∧ c = d := by
  intro a
  induction a with
  | nil =>
    intro b c d _ hb h
    cases b with
    | nil => simpa using h
    | cons x xs =>
      exfalso
      rw [List.nil_append] at h
      have hx : x = '_' := by
        have := congrArg (fun l => l.head?) h
        simpa using this.symm
      exact hb (hx ▸ List.mem_cons_self x xs)
  | cons y ys ih =>
    intro b c d ha hb h
    cases b with
    | nil =>
      exfalso
      rw [List.nil_append] at h
      have hy : y = '_' := by
        have := congrArg (fun l => l.head?) h
        simpa using this
      exact ha (hy ▸ List.mem_cons_self y ys)
    | cons x xs =>
      simp only [List.cons_append, List.cons.injEq] at h
      obtain ⟨rfl, htail⟩ := h
      have ha' : '_' ∉ ys := fun hm => ha (List.mem_cons_of_mem _ hm)
      have hb' : '_' ∉ xs := fun hm => hb (List.mem_cons_of_mem _ hm)
      obtain ⟨h1, h2⟩ := ih xs c d ha' hb' htail
      exact ⟨by rw [h1], h2⟩

theorem fkName_data (tableName : String) (c : Column) (idx : Nat) :
    (fkName tableName c idx).data =
      ("FK_" ++ tableName ++ "_" ++ c.referenceTable.getD "").data ++ '_' :: (natRepr idx).data := by
  rw [fkName]
  simp [String.data_append, List.append_assoc]

theorem fkName_inj_idx (tableName : String) (c₁ c₂ : Column) (i j : Nat) (hij : i ≠ j) :
    fkName tableName c₁ i ≠ fkName tableName c₂ j := by
  intro h
  apply hij
  have hd := congrArg String.data h
  rw [fkName_data, fkName_data] at hd
  have hrev := congrArg List.reverse hd
  rw [List.reverse_append, List.reverse_append] at hrev
  simp only [List.reverse_cons] at hrev
  rw [List.append_assoc, List.append_assoc, List.singleton_append, List.singleton_append] at hrev
  have hni : '_' ∉ ((natRepr i).data).reverse := fun hm =>
    underscore_not_mem_natDigitsAux (i + 1) i (List.mem_reverse.mp hm)
  have hnj : '_' ∉ ((natRepr j).data).reverse := fun hm =>
    underscore_not_mem_natDigitsAux (j + 1) j (List.mem_reverse.mp hm)
  obtain ⟨h1, -⟩ := append_sep_inj _ _ _ _ hni hnj hrev
  have : (natRepr i).data = (natRepr j).data := by
    have := congrArg List.reverse h1
    simpa using this
  exact natRepr_inj i j (String.ext this)

/-! ## Claims -/

/-- C1: the Type Mapper round trip. Encoding each semantic type — Text,
Number, Date, Boolean (the code's `True/False`), List (with a non-empty
value list), Reference (with a set, marker-free referenced table) — via the
forward table and decoding the native type together with the generated
comment through `mapSqlTypeToFriendlyType` recovers the original type;
Identifier (`BIGINT`) is the sole exception, decoding as Number. -/
theorem C1_typeMapper_roundTrip (vs : List String) (t : String) (d : Option (List String))
    (hvs : vs ≠ [])
    (ht : t ≠ "")
    (hmark : containsSub (commentSuffix (refCol t d)) "ALLOWED VALUES:" = false) :
    (columnSqlType (plainCol "Text") = "STRING" ∧ decodeOf (plainCol "Text") = "Text") ∧
    (columnSqlType (plainCol "Number") = "DOUBLE" ∧ decodeOf (plainCol "Number") = "Number") ∧
    (columnSqlType (plainCol "Date") = "TIMESTAMP" ∧ decodeOf (plainCol "Date") = "Date") ∧
    (columnSqlType (plainCol "True/False") = "BOOLEAN" ∧
      decodeOf (plainCol "True/False") = "True/False") ∧
    (columnSqlType (listCol vs) = "STRING" ∧
      containsSub (commentSuffix (listCol vs)) "ALLOWED VALUES:" = true ∧
      decodeOf (listCol vs) = "List") ∧
    (columnSqlType (refCol t d) = "BIGINT" ∧
      containsSub (commentSuffix (refCol t d)) "REFERENCES:" = true ∧
      decodeOf (refCol t d) = "Reference") ∧
    (columnSqlType identifierCol = "BIGINT" ∧ decodeOf identifierCol = "Number") := by
  have hcsL : commentSuffix (listCol vs) =
      " /* ALLOWED VALUES: " ++ (String.intercalate ", " vs ++ " */") := by
    have hne : vs.isEmpty = false := by
      cases vs with
      | nil => exact absurd rfl hvs
      | cons a l => rfl
    simp [commentSuffix, isListWithValues, listCol, plainCol, hne, String.append_assoc]
  have hL1 : containsSub (commentSuffix (listCol vs)) "ALLOWED VALUES:" = true := by
    rw [hcsL]
    exact containsSub_append_left _ _ _ (by decide)
  have hL2 : decodeOf (listCol vs) = "List" := by
    have hct : columnSqlType (listCol vs) = "STRING" := rfl
    rw [decodeOf, hct, mapSqlTypeToFriendlyType]
    simp [hL1]
  have hcsR : commentSuffix (refCol t d) =
      " /* REFERENCES: " ++ (t ++ (" (DISPLAY: " ++ (displayColumnsJoin (refCol t d) ++ ") */"))) := by
    simp [commentSuffix, isListWithValues, isRefWithTable, refCol, plainCol, jsOptTruthy, ht,
      String.append_assoc]
  have hR1 : containsSub (commentSuffix (refCol t d)) "REFERENCES:" = true := by
    rw [hcsR]
    exact containsSub_append_left _ _ _ (by decide)
  have hR2 : decodeOf (refCol t d) = "Reference" := by
    have hct : columnSqlType (refCol t d) = "BIGINT" := rfl
    rw [decodeOf, hct, mapSqlTypeToFriendlyType]
    simp [hmark, hR1]
  exact ⟨⟨rfl, by decide⟩, ⟨rfl, by decide⟩, ⟨rfl, by decide⟩, ⟨rfl, by decide⟩,
    ⟨rfl, hL1, hL2⟩, ⟨rfl, hR1, hR2⟩, ⟨rfl, by decide⟩⟩

/-- C1 witness: the round trip evaluated at the concrete value list
`["Red", "Blue"]` and concrete referenced table `Customers`. -/
theorem C1_typeMapper_roundTrip_witness :
    decodeOf (listCol ["Red", "Blue"]) = "List" ∧
    decodeOf (refCol "Customers" (some ["Name"])) = "Reference" ∧
    decodeOf identifierCol = "Number" := by
  obtain ⟨-, -, -, -, ⟨-, -, h5⟩, ⟨-, -, h6⟩, ⟨-, h7⟩⟩ :=
    C1_typeMapper_roundTrip ["Red", "Blue"] "Customers" (some ["Name"])
      (by decide) (by decide) (by decide)
  exact ⟨h5, h6, h7⟩

set_option maxRecDepth 8192 in
/-- C2: on the spec's end-to-end example — table `Orders`, identity primary
key `OrdersID`, non-nullable `Amount` of semantic type Number, namespace
`main.default` — the SQL Generator produces exactly the claimed DDL text. -/
theorem C2_generateSQL_orders_example :
    generateSQL "main" "default" "Orders"
      [{ name := "OrdersID", dataType := "BIGINT", isPrimaryKey := true, isNullable := false,
         isIdentity := true, isFixed := true },
       { name := "Amount", dataType := "Number", isPrimaryKey := false, isNullable := false,
         isIdentity := false, isFixed := false }] =
    "CREATE TABLE main.default.Orders (\n  OrdersID BIGINT GENERATED ALWAYS AS IDENTITY NOT NULL,\n  Amount DOUBLE NOT NULL,\n  CONSTRAINT PK_Orders PRIMARY KEY (\n    OrdersID\n  )\n) USING DELTA;" := by
  decide

/-- C3: the SQL Generator returns the empty string exactly when its
precondition fails — the table name is empty or some column name is empty —
and it returns (rather than throws) in every case, being a total function. -/
theorem C3_generateSQL_empty_iff (catalog schema tableName : String) (cols : List Column) :
    generateSQL catalog schema tableName cols = "" ↔
      tableName = "" ∨ ∃ c ∈ cols, c.name = "" := by
  constructor
  · intro h
    by_contra hcon
    push_neg at hcon
    obtain ⟨ht, hc⟩ := hcon
    have hany : cols.any (fun c => c.name == "") = false := by
      rw [Bool.eq_false_iff]
      intro habs
      obtain ⟨c, hmem, heq⟩ := List.any_eq_true.mp habs
      exact hc c hmem (by simpa using heq)
    rw [generateSQL, if_neg ht, if_neg (by simp [hany])] at h
    exact str_append_ne_empty_right _ "\n) USING DELTA;" (by decide) h
  · rintro (rfl | ⟨c, hmem, hname⟩)
    · simp [generateSQL]
    · by_cases ht : tableName = ""
      · simp [generateSQL, ht]
      · have hany : cols.any (fun c => c.name == "") = true :=
          List.any_eq_true.mpr ⟨c, hmem, by simp [hname]⟩

        simp [generateSQL, ht, hany]

/-- C4: `setPrimaryKey(index)` (the `isPrimaryKey` branch of
`handleColumnChange`) promotes the column at `index` (forcing
`isNullable := false`), demotes every other column, leaves every other
field of every column unchanged, and afterwards exactly one column is a
primary key. -/
theorem C4_setPrimaryKey_exclusive (cols : List Column) (index : Nat)
    (h : index < cols.length) :
    (setPrimaryKey cols index).length = cols.length ∧
    (setPrimaryKey cols index)[index]? =
      (cols[index]?).map (fun c => { c with isPrimaryKey := true, isNullable := false }) ∧
    (∀ i, i ≠ index → (setPrimaryKey cols index)[i]? =
      (cols[i]?).map (fun c => { c with isPrimaryKey := false })) ∧
    (setPrimaryKey cols index).countP (·.isPrimaryKey) = 1 := by
  refine ⟨mapWithIdx_length _ _ _, ?_, ?_, ?_⟩
  · rw [setPrimaryKey, mapWithIdx_getElem?]
    cases hc : cols[index]? with
    | none => rfl
    | some c => simp
  · intro i hi
    rw [setPrimaryKey, mapWithIdx_getElem?]
    cases hc : cols[i]? with
    | none => rfl
    | some c =>
      simp only [Option.map_some']
      rw [if_neg (by omega : ¬0 + i = index)]
      congr 1
      by_cases hpk : c.isPrimaryKey = true
      · rw [if_pos hpk]
      · rw [if_neg hpk]
        exact (demote_eq_self c ((Bool.not_eq_true _).mp hpk)).symm
  · rw [setPrimaryKey]
    rw [setPrimaryKey_countP_aux index cols 0, if_pos (by omega)]

/-- C4 witness: the spec's example — columns `[A (primary key), B]`; after
`setPrimaryKey(1)`, A is demoted, B is promoted with `isNullable = false`,
and exactly one primary key remains. -/
theorem C4_setPrimaryKey_exclusive_witness :
    (setPrimaryKey
        [{ name := "A", dataType := "Text", isPrimaryKey := true, isNullable := false,
           isIdentity := false, isFixed := false },
         { name := "B", dataType := "Text", isPrimaryKey := false, isNullable := true,
           isIdentity := false, isFixed := false }] 1)[0]? =
      some { name := "A", dataType := "Text", isPrimaryKey := false, isNullable := false,
             isIdentity := false, isFixed := false } ∧
    (setPrimaryKey
        [{ name := "A", dataType := "Text", isPrimaryKey := true, isNullable := false,
           isIdentity := false, isFixed := false },
         { name := "B", dataType := "Text", isPrimaryKey := false, isNullable := true,
           isIdentity := false, isFixed := false }] 1)[1]? =
      some { name := "B", dataType := "Text", isPrimaryKey := true, isNullable := false,
             isIdentity := false, isFixed := false } ∧
    (setPrimaryKey
        [{ name := "A", dataType := "Text", isPrimaryKey := true, isNullable := false,
           isIdentity := false, isFixed := false },
         { name := "B", dataType := "Text", isPrimaryKey := false, isNullable := true,
           isIdentity := false, isFixed := false }] 1).countP (·.isPrimaryKey) = 1 := by
  have h := C4_setPrimaryKey_exclusive
    [{ name := "A", dataType := "Text", isPrimaryKey := true, isNullable := false,
       isIdentity := false, isFixed := false },
     { name := "B", dataType := "Text", isPrimaryKey := false, isNullable := true,
       isIdentity := false, isFixed := false }] 1 (by decide)
  exact ⟨(h.2.2.1 0 (by decide)).trans (by decide), h.2.1.trans (by decide), h.2.2.2⟩

/-- C5: on a table rename to a non-empty name, the first primary-key column
is renamed to `<NewTableName>ID` exactly when its current name equals `ID`
or ends with `ID`; otherwise the column list is untouched at that position,
every other column is untouched in all cases, and a freshly derived name
again ends with `ID`, so repeated renames keep re-deriving it. -/
theorem C5_renameTable_autoderived_pk (n : String) (cols : List Column) (i : Nat) (c : Column)
    (hn : n ≠ "")
    (hc : cols[i]? = some c)
    (hpk : c.isPrimaryKey = true)
    (hfirst : ∀ j d, j < i → cols[j]? = some d → d.isPrimaryKey = false) :
    (renameTablePK n cols)[i]? =
      some (if c.name == "ID" || strEndsWith c.name "ID" then { c with name := n ++ "ID" }
            else c) ∧
    (∀ j, j ≠ i → (renameTablePK n cols)[j]? = cols[j]?) ∧
    (((renameTablePK n cols)[i]?).map Column.name = some (n ++ "ID") ↔
      (c.name = "ID" ∨ strEndsWith c.name "ID" = true)) ∧
    strEndsWith (n ++ "ID") "ID" = true := by
  have hr : renameTablePK n cols = renamePKCols n cols := by
    rw [renameTablePK, if_neg hn]
  obtain ⟨h1, h2⟩ := renamePKCols_spec n cols i c hc hpk hfirst
  rw [hr]
  refine ⟨h1, h2, ?_, strEndsWith_append n "ID"⟩
  rw [h1]
  by_cases hcase : (c.name == "ID" || strEndsWith c.name "ID") = true
  · rw [if_pos hcase]
    simp only [Option.map_some']
    constructor
    · intro _
      rcases Bool.or_eq_true _ _ |>.mp hcase with h | h
      · exact Or.inl (by simpa using h)
      · exact Or.inr h
    · intro _
      simp
  · rw [if_neg hcase]
    simp only [Bool.or_eq_true, not_or] at hcase
    obtain ⟨hid, hend⟩ := hcase
    simp only [Option.map_some']
    constructor
    · intro heq
      exfalso
      have hname : c.name = n ++ "ID" := by injection heq
      rw [hname] at hend
      exact hend (strEndsWith_append n "ID")
    · intro hdisj
      exfalso
      rcases hdisj with h | h
      · exact hid (by simp [h])
      · exact hend h

/-- C5 witness: renaming an untouched default table (primary-key column
`ID`) to `Customer` yields the column name `CustomerID`. -/
theorem C5_renameTable_autoderived_pk_witness :
    ((renameTablePK "Customer" [identifierCol])[0]?).map Column.name = some "CustomerID" := by
  have h := C5_renameTable_autoderived_pk "Customer" [identifierCol] 0 identifierCol
    (by decide) rfl rfl (fun j d hj _ => absurd hj (Nat.not_lt_zero j))
  exact h.2.2.1.mpr (Or.inl rfl)

/-- C6: the Row Validator returns a per-column-name error mapping computed
independently per column and aggregating every failing column; per column
the precedence is (a) a primary-key column in add ("create") mode is
skipped, (b) a non-nullable column with a null/undefined/empty value gets
the "cannot be empty" error, (c) otherwise the friendly type dictates the
numeric, date, list-membership or reference-id check, and any other type
passes. -/
theorem C6_rowValidator (env : JsEnv) (mode : String) (pkc : Option String)
    (cols : List ClientColumn) (row : String → JsVal) :
    (∀ nm e, (nm, e) ∈ validateForm env mode pkc cols row ↔
      ∃ c ∈ cols, c.name = nm ∧ validateField env mode pkc c (row nm) = some e) ∧
    (∀ c v, colIsPK pkc c = true → mode = "add" → validateField env mode pkc c v = none) ∧
    (∀ c v, (colIsPK pkc c && (mode == "add")) = false → c.isNullable = false →
      isEmptyVal v = true →
      validateField env mode pkc c v = some (c.name ++ " cannot be empty")) ∧
    (∀ c v, (colIsPK pkc c && (mode == "add")) = false → (!c.isNullable && isEmptyVal v) = false →
      ((friendlyTypeOf c = "Number" →
        validateField env mode pkc c v =
          (if v != .vStr "" && v != .vNull && env.numberIsNaN v then
            some (c.name ++ " must be a valid number") else none)) ∧
       (friendlyTypeOf c = "Date" →
        validateField env mode pkc c v =
          (if v != .vStr "" && v != .vNull && env.dateParseIsNaN v then
            some (c.name ++ " must be a valid date") else none)) ∧
       (friendlyTypeOf c = "List" → ∀ vs, c.listValues = some vs →
        validateField env mode pkc c v =
          (if jsTruthy v && !listIncludes vs v then
            some (c.name ++ " must be one of the allowed values: " ++ String.intercalate ", " vs)
          else none)) ∧
       (friendlyTypeOf c = "Reference" →
        validateField env mode pkc c v =
          (if v != .vNull && v != .vStr "" && env.numberIsNaN v then
            some (c.name ++ " must be a valid reference ID") else none)) ∧
       (friendlyTypeOf c ≠ "Number" → friendlyTypeOf c ≠ "Date" → friendlyTypeOf c ≠ "List" →
        friendlyTypeOf c ≠ "Reference" → validateField env mode pkc c v = none))) := by
  refine ⟨?_, ?_, ?_, ?_⟩
  · intro nm e
    rw [validateForm, List.mem_filterMap]
    constructor
    · rintro ⟨c, hmem, hmap⟩
      rw [Option.map_eq_some'] at hmap
      obtain ⟨err, herr, heq⟩ := hmap
      have hn : c.name = nm := congrArg Prod.fst heq
      have he : err = e := congrArg Prod.snd heq
      subst hn
      subst he
      exact ⟨c, hmem, rfl, herr⟩
    · rintro ⟨c, hmem, hname, hval⟩
      subst hname
      exact ⟨c, hmem, by rw [hval]; rfl⟩
  · intro c v hpk hmode
    subst hmode
    simp [validateField, hpk]
  · intro c v h1 hnn hempty
    rw [validateField]
    simp only [h1, Bool.false_eq_true, if_false]
    simp [hnn, hempty]
  · intro c v h1 h2
    rw [validateField]
    simp only [h1, h2, Bool.false_eq_true, if_false]
    refine ⟨?_, ?_, ?_, ?_, ?_⟩
    · intro hft; simp only [hft]; simp
    · intro hft; simp only [hft]; simp
    · intro hft vs hvs; simp only [hft]; simp [hvs]
    · intro hft; simp only [hft]; simp
    · intro h3 h4 h5 h6
      simp only [if_neg h3, if_neg h4, if_neg h5, if_neg h6]

/-- C8: primary-key identification on load prefers a column whose
store-reported flag is set, falls back to the first column whose name ends
with the case-insensitive suffix `id`, and when neither exists the table
still loads its columns while the warning flag is raised and row update
and delete are refused with error messages rather than the load aborting. -/
theorem C8_primaryKey_identification (cols : List ClientColumn) :
    (fetchTableStructureCore cols).1 = cols.map mapColumn ∧
    (∀ i (hi : i < cols.length), (cols[i]).isPrimaryKey = true →
      (∀ j (hj : j < cols.length), j < i → (cols[j]).isPrimaryKey = false) →
      (fetchTableStructureCore cols).2.1 = some (cols[i]).name) ∧
    ((∀ c ∈ cols, c.isPrimaryKey = false) →
      ∀ i (hi : i < cols.length), strEndsWith (lowerStr (cols[i]).name) "id" = true →
      (∀ j (hj : j < cols.length), j < i → strEndsWith (lowerStr (cols[j]).name) "id" = false) →
      (fetchTableStructureCore cols).2.1 = some (cols[i]).name) ∧
    ((∀ c ∈ cols, c.isPrimaryKey = false ∧ strEndsWith (lowerStr c.name) "id" = false) →
      (fetchTableStructureCore cols).2.1 = none ∧
      (fetchTableStructureCore cols).2.2 = true ∧
      updateRowGuard (fetchTableStructureCore cols).2.1 =
        Except.error "Cannot update row: No primary key column identified" ∧
      deleteRowGuard (fetchTableStructureCore cols).2.1 =
        Except.error "Cannot delete row: No primary key column identified") := by
  have hlen : (cols.map mapColumn).length = cols.length := by simp
  refine ⟨rfl, ?_, ?_, ?_⟩
  · intro i hi hp hfirst
    have hfind : (cols.map mapColumn).find? (·.isPrimaryKey) = some (mapColumn cols[i]) := by
      have h1 := find?_eq_some_of_first (·.isPrimaryKey) (cols.map mapColumn) i
        (by omega)
        (by rw [List.getElem_map]; simpa [mapColumn_isPrimaryKey] using hp)
        (by intro j hj hji
            rw [List.getElem_map]
            simpa [mapColumn_isPrimaryKey] using hfirst j (by omega) hji)
      rw [List.getElem_map] at h1
      exact h1
    show identifyPrimaryKey (cols.map mapColumn) = _
    rw [identifyPrimaryKey, hfind]
    rfl
  · intro hflags i hi hp hfirst
    have hnone : (cols.map mapColumn).find? (·.isPrimaryKey) = none := by
      rw [List.find?_eq_none]
      intro x hx
      obtain ⟨a, hamem, rfl⟩ := List.mem_map.mp hx
      simp [mapColumn_isPrimaryKey, hflags a hamem]
    have hfind : (cols.map mapColumn).find? (fun c => strEndsWith (lowerStr c.name) "id") =
        some (mapColumn cols[i]) := by
      have h1 := find?_eq_some_of_first (fun c => strEndsWith (lowerStr c.name) "id")
        (cols.map mapColumn) i
        (by omega)
        (by rw [List.getElem_map]; simpa [mapColumn_name] using hp)
        (by intro j hj hji
            rw [List.getElem_map]
            simpa [mapColumn_name] using hfirst j (by omega) hji)
      rw [List.getElem_map] at h1
      exact h1
    show identifyPrimaryKey (cols.map mapColumn) = _
    rw [identifyPrimaryKey, hnone, hfind]
    rfl
  · intro hnone
    have h1 : (cols.map mapColumn).find? (·.isPrimaryKey) = none := by
      rw [List.find?_eq_none]
      intro x hx
      obtain ⟨a, hamem, rfl⟩ := List.mem_map.mp hx
      simp [mapColumn_isPrimaryKey, (hnone a hamem).1]
    have h2 : (cols.map mapColumn).find? (fun c => strEndsWith (lowerStr c.name) "id") = none := by
      rw [List.find?_eq_none]
      intro x hx
      obtain ⟨a, hamem, rfl⟩ := List.mem_map.mp hx
      simp [mapColumn_name, (hnone a hamem).2]
    have hid : identifyPrimaryKey (cols.map mapColumn) = none := by
      rw [identifyPrimaryKey, h1, h2]
      rfl
    have hres : (fetchTableStructureCore cols).2.1 = none := hid
    refine ⟨hres, ?_, by rw [hres]; rfl, by rw [hres]; rfl⟩
    show (identifyPrimaryKey (cols.map mapColumn)).isNone = true
    rw [hid]
    rfl

/-- C9 (original claim refuted): with the values string `","`, the parsed
value list is empty after splitting on commas and trimming, yet
`addListColumn` is not a no-op — a List column with empty `listValues` is
appended, because the only rejection in the code is the confirm button's
`!localListValues.trim()` guard, which `","` passes. -/
theorem C9_counterexample_comma_appends :
    parseListValues "," = [] ∧ addListColumn "," [] ≠ [] := by
  decide

/-- C9 (amended): `addListColumn` is a no-op exactly when the supplied
values string is empty or whitespace-only (its trim is empty); for any
other input — including inputs such as `","` whose parsed value list is
empty — it appends one List column, and that column's value list is always
empty, because the handler parses the stale parent `listValues` state
(still `''` at confirm time) rather than the supplied string. -/
theorem C9_addListColumn_noop_iff (values : String) (cols : List Column) :
    (addListColumn values cols = cols ↔ trimStr values = "") ∧
    (trimStr values ≠ "" → addListColumn values cols =
      cols ++ [{ name := "", dataType := "List", isPrimaryKey := false, isNullable := true,
                 isIdentity := false, isFixed := false,
                 listValues := some [] }]) := by
  refine ⟨⟨fun h => ?_, fun h => by simp [addListColumn, h]⟩, fun ht => ?_⟩
  · by_contra ht
    rw [addListColumn, if_neg ht] at h
    have hlen := congrArg List.length h
    simp at hlen
  · rw [addListColumn, if_neg ht]
    rfl


/-- C10: the Databricks adapter's structure introspection reports every
column with `isNullable` true and `isPrimaryKey` false unconditionally, so
for tables loaded through it the store-flag path of primary-key
identification can never fire and the non-nullable "cannot be empty"
validation rule can never trigger. -/
theorem C10_adapter_structure (tableId : String) (rows : List DescribeRow) :
    ((getTableStructure tableId rows).2.length = rows.length) ∧
    (∀ c ∈ (getTableStructure tableId rows).2, c.isNullable = true ∧ c.isPrimaryKey = false) ∧
    ((((getTableStructure tableId rows).2.map adapterToClient).map mapColumn).find?
        (·.isPrimaryKey) = none) ∧
    (∀ env mode pkc v c,
      c ∈ (((getTableStructure tableId rows).2.map adapterToClient).map mapColumn) →
      validateField env mode pkc c v ≠ some (c.name ++ " cannot be empty")) := by
  refine ⟨by simp [getTableStructure], ?_, ?_, ?_⟩
  · intro c hc
    obtain ⟨r, hr, rfl⟩ := List.mem_map.mp hc
    exact ⟨rfl, rfl⟩
  · rw [List.find?_eq_none]
    intro x hx
    obtain ⟨a, ha, rfl⟩ := List.mem_map.mp hx
    obtain ⟨b, hb, rfl⟩ := List.mem_map.mp ha
    obtain ⟨r, hr, rfl⟩ := List.mem_map.mp hb
    simp [mapColumn_isPrimaryKey, adapterToClient]
  · intro env mode pkc v c hc
    obtain ⟨a, ha, rfl⟩ := List.mem_map.mp hc
    obtain ⟨b, hb, rfl⟩ := List.mem_map.mp ha
    obtain ⟨r, hr, rfl⟩ := List.mem_map.mp hb
    exact validateField_no_empty_error env mode pkc _ v rfl

/-- C7: each Reference column with a set referenced table contributes
exactly one foreign-key clause targeting `<catalog>.<schema>.<refTable>
(<refTable>ID)`, the constraint name is built from the table name, the
referenced table name and the column's ordinal among the Reference
columns, and for every pair of distinct Reference columns — including two
referencing the same table — the constraint names differ. -/
theorem C7_foreignKey_clauses (catalog schema tableName : String) (cols : List Column) :
    (fkClauses catalog schema tableName cols).length = cols.countP isRefWithTable ∧
    (∀ i, (fkClauses catalog schema tableName cols)[i]? =
      ((referenceColumns cols)[i]?).map (fun c => fkClause catalog schema tableName c i)) ∧
    (∀ c rt i, c.referenceTable = some rt →
      fkClause catalog schema tableName c i =
        "  CONSTRAINT " ++ fkName tableName c i ++ " FOREIGN KEY (" ++ c.name
          ++ ") REFERENCES " ++ catalog ++ "." ++ schema ++ "." ++ rt
          ++ " (" ++ rt ++ "ID)") ∧
    (∀ i j c₁ c₂, (referenceColumns cols)[i]? = some c₁ →
      (referenceColumns cols)[j]? = some c₂ → i ≠ j →
      fkName tableName c₁ i ≠ fkName tableName c₂ j) := by
  refine ⟨?_, ?_, ?_, ?_⟩
  · rw [fkClauses, mapWithIdx_length, referenceColumns, List.countP_eq_length_filter]
  · intro i
    rw [fkClauses, mapWithIdx_getElem?, Nat.zero_add]
  · intro c rt i hrt
    simp [fkClause, hrt]
  · intro i j c₁ c₂ _ _ hij
    exact fkName_inj_idx tableName c₁ c₂ i j hij

end Nexus
